import Mathlib

/-!
Shallow embedding of the STM32 GPIO port model
(`hw/gpio/stm32_gpio.c`, `include/hw/gpio/stm32_gpio.h`,
`include/hw/arm/stm32.h`) and proofs about its register interface and
pin-state resolution algorithm.

Machine integers are modelled as `Nat` with explicit truncation
`% 2^32` where the C code stores into a `uint32_t`.  The QEMU bit
helpers `extract32` / `deposit32` are embedded directly.  Side effects
(per-pin edge IRQs, the port-level state pulse, `qemu_log_mask`
diagnostics) are modelled as an explicit event list returned alongside
the post-state.
-/

/-! ## Register offsets and enumeration constants (from the headers) -/

def STM32_GPIO_REG_MODER   : Nat := 0x000
def STM32_GPIO_REG_OTYPER  : Nat := 0x004
def STM32_GPIO_REG_OSPEEDR : Nat := 0x008
def STM32_GPIO_REG_PUPDR   : Nat := 0x00C
def STM32_GPIO_REG_IDR     : Nat := 0x010
def STM32_GPIO_REG_ODR     : Nat := 0x014
def STM32_GPIO_REG_BSRR    : Nat := 0x018
def STM32_GPIO_REG_LCKR    : Nat := 0x01C
def STM32_GPIO_REG_AFRL    : Nat := 0x020
def STM32_GPIO_REG_AFRH    : Nat := 0x024
def STM32_GPIO_REG_BRR     : Nat := 0x028

def STM32_GPIO_NPINS : Nat := 16

/- Families, in the declaration order of the anonymous enum in
`include/hw/arm/stm32.h`. -/
def STM32_F2 : Nat := 0
def STM32_F4 : Nat := 1
def STM32_H5 : Nat := 2
def STM32_F7 : Nat := 3
def STM32_H7 : Nat := 4

def STM32_GPIO_PORT_A : Nat := 0
def STM32_GPIO_PORT_B : Nat := 1
def STM32_GPIO_PORT_C : Nat := 2

def STM32_GPIO_MODE_INPUT  : Nat := 0
def STM32_GPIO_MODE_OUTPUT : Nat := 1
def STM32_GPIO_MODE_AF     : Nat := 2
def STM32_GPIO_MODE_ANALOG : Nat := 3

def STM32_GPIO_PULL_NONE : Nat := 0
def STM32_GPIO_PULL_UP   : Nat := 1
def STM32_GPIO_PULL_DOWN : Nat := 2

/-! ## QEMU bit helpers (`include/qemu/bitops.h`)

`extract32(value, start, length) = (value >> start) & (2^length - 1)` and
`deposit32(value, start, length, fieldval)` splices the low `length` bits
of `fieldval` into `value` at `start`, in 32-bit arithmetic. -/

def extract32 (value start length : Nat) : Nat :=
  (value >>> start) &&& (2 ^ length - 1)

def deposit32 (value start length fieldval : Nat) : Nat :=
  let mask : Nat := ((2 ^ length - 1) <<< start) % 2 ^ 32
  ((value % 2 ^ 32) &&& (mask ^^^ (2 ^ 32 - 1))) |||
    (((fieldval <<< start) % 2 ^ 32) &&& mask)

/-! ## Device state (`struct STM32GPIOState`)

The C field `in` is a reserved word in Lean and is embedded as `inp`. -/

structure STM32GPIOState where
  moder   : Nat
  otyper  : Nat
  ospeedr : Nat
  pupdr   : Nat
  idr     : Nat
  odr     : Nat
  lckr    : Nat
  aflr    : Nat
  afhr    : Nat
  reset   : Bool
  enable  : Bool
  inp     : Nat
  in_mask : Nat
  family  : Nat
  port    : Nat
  ngpio   : Nat
  deriving DecidableEq, Repr

/-- Observable side effects: the per-pin edge IRQ (`qemu_set_irq` on
`input_irq[pin]`), the port-level pulse (`qemu_irq_pulse` on `state_irq`)
and the `qemu_log_mask(LOG_GUEST_ERROR, ...)` diagnostics. -/
inductive Event where
  | inputIrq (pin : Nat) (level : Bool)
  | statePulse
  | logShortCircuit (pin : Nat)
  | logDisabled
  | logBadRead (offset : Nat)
  | logBadWrite (offset : Nat)
  deriving DecidableEq, Repr

/-- The per-pin resolved level computed by the body of the loop in
`stm32_gpio_update_state`: external drive (`in_mask`/`in`) wins, else an
Output-mode pin drives `odr`, else the pull-up decides. -/
def resolvedBit (s : STM32GPIOState) (i : Nat) : Nat :=
  if extract32 s.in_mask i 1 = 1 then
    extract32 s.inp i 1
  else if extract32 s.moder (i * 2) 2 = STM32_GPIO_MODE_OUTPUT then
    extract32 s.odr i 1
  else
    if extract32 s.pupdr (i * 2) 2 = STM32_GPIO_PULL_UP then 1 else 0

/-- One iteration of the loop in `stm32_gpio_update_state`: short-circuit
diagnostic, IDR update via `deposit32`, and the conditional per-pin edge
IRQ. -/
def stepPin (s : STM32GPIOState) (i : Nat) : STM32GPIOState × List Event :=
  let prev_id := extract32 s.idr i 1
  let mode := extract32 s.moder (i * 2) 2
  let hazard : List Event :=
    if mode = STM32_GPIO_MODE_OUTPUT ∧ extract32 s.in_mask i 1 = 1 then
      [Event.logShortCircuit i]
    else []
  let new_id := resolvedBit s i
  let s' := { s with idr := deposit32 s.idr i 1 new_id }
  let notif : List Event :=
    if new_id ≠ prev_id ∧ mode = STM32_GPIO_MODE_INPUT then
      [Event.inputIrq i (new_id = 1)]
    else []
  (s', hazard ++ notif)

/-- `stm32_gpio_update_state`: the full resolution pass over all
`ngpio` pins followed by the unconditional port-level pulse. -/
def stm32_gpio_update_state (s : STM32GPIOState) :
    STM32GPIOState × List Event :=
  let r := (List.range s.ngpio).foldl
    (fun (acc : STM32GPIOState × List Event) i =>
      let p := stepPin acc.1 i
      (p.1, acc.2 ++ p.2)) (s, [])
  (r.1, r.2 ++ [Event.statePulse])

/-- `stm32_gpio_reset`: registers to zero, then the STM32F4 port A/B
particularities, then a resolution pass. -/
def stm32_gpio_reset (s : STM32GPIOState) : STM32GPIOState × List Event :=
  let s1 := { s with moder := 0, otyper := 0, ospeedr := 0, pupdr := 0,
                     odr := 0, lckr := 0, aflr := 0, afhr := 0 }
  let s2 :=
    if s1.family = STM32_F4 then
      if s1.port = STM32_GPIO_PORT_A then
        { s1 with moder := 0xA8000000, pupdr := 0x64000000 }
      else if s1.port = STM32_GPIO_PORT_B then
        { s1 with moder := 0x00000280, ospeedr := 0x000000C0,
                  pupdr := 0x00000100 }
      else s1
    else s1
  stm32_gpio_update_state s2

/-- `stm32_gpio_irq_reset`: edge-detected reset line from the RCC. -/
def stm32_gpio_irq_reset (s : STM32GPIOState) (value : Int) :
    STM32GPIOState × List Event :=
  let prev_reset := s.reset
  let s1 := { s with reset := value ≠ 0 }
  if prev_reset ≠ s1.reset then
    if s1.reset then stm32_gpio_reset s1 else stm32_gpio_update_state s1
  else (s1, [])

/-- `stm32_gpio_irq_enable`: edge-detected clock-enable line from the
RCC. -/
def stm32_gpio_irq_enable (s : STM32GPIOState) (value : Int) :
    STM32GPIOState × List Event :=
  let prev_enable := s.enable
  let s1 := { s with enable := value ≠ 0 }
  if prev_enable ≠ s1.enable then stm32_gpio_update_state s1
  else (s1, [])

/-- `stm32_gpio_irq_set`: external drive input for one pin.
`value < 0` disconnects the pin, `value = 0` drives it low,
`value > 0` drives it high.  Caller contract: `line < ngpio`. -/
def stm32_gpio_irq_set (s : STM32GPIOState) (line : Nat) (value : Int) :
    STM32GPIOState × List Event :=
  let s1 := { s with
    in_mask := deposit32 s.in_mask line 1 (if 0 ≤ value then 1 else 0) }
  let s2 :=
    if 0 ≤ value then
      { s1 with inp := deposit32 s1.inp line 1 (if value ≠ 0 then 1 else 0) }
    else s1
  stm32_gpio_update_state s2

/-- `stm32_gpio_read`. -/
def stm32_gpio_read (s : STM32GPIOState) (offset : Nat) :
    Nat × List Event :=
  if s.enable = false then (0, [Event.logDisabled])
  else if offset = STM32_GPIO_REG_MODER then (s.moder, [])
  else if offset = STM32_GPIO_REG_OTYPER then (s.otyper, [])
  else if offset = STM32_GPIO_REG_OSPEEDR then (s.ospeedr, [])
  else if offset = STM32_GPIO_REG_PUPDR then (s.pupdr, [])
  else if offset = STM32_GPIO_REG_IDR then (s.idr, [])
  else if offset = STM32_GPIO_REG_ODR then (s.odr, [])
  else if offset = STM32_GPIO_REG_BSRR then (0, [])
  else if offset = STM32_GPIO_REG_LCKR then (s.lckr, [])
  else if offset = STM32_GPIO_REG_AFRL then (s.aflr, [])
  else if offset = STM32_GPIO_REG_AFRH then (s.afhr, [])
  else if offset = STM32_GPIO_REG_BRR then
    if s.family ≠ STM32_F4 then (0, [])
    else (0, [Event.logBadRead offset])
  else (0, [Event.logBadRead offset])

/-- The `switch (offset)` statement of `stm32_gpio_write`: the register
decode.  The guest-supplied 64-bit `value` is truncated on each
`uint32_t` store. -/
def stm32_gpio_write_switch (s : STM32GPIOState) (offset value : Nat) :
    STM32GPIOState × List Event :=
  if offset = STM32_GPIO_REG_MODER then
    ({ s with moder := value % 2 ^ 32 }, [])
  else if offset = STM32_GPIO_REG_OTYPER then
    ({ s with otyper := value % 2 ^ 32 }, [])
  else if offset = STM32_GPIO_REG_OSPEEDR then
    ({ s with ospeedr := value % 2 ^ 32 }, [])
  else if offset = STM32_GPIO_REG_PUPDR then
    ({ s with pupdr := value % 2 ^ 32 }, [])
  else if offset = STM32_GPIO_REG_IDR then
    (s, [])
  else if offset = STM32_GPIO_REG_ODR then
    ({ s with odr := value % 2 ^ 32 }, [])
  else if offset = STM32_GPIO_REG_BSRR then
    ({ s with odr :=
        (s.odr &&& (((value >>> 16) &&& 0xFFFF) ^^^ (2 ^ 32 - 1)))
          ||| (value &&& 0xFFFF) }, [])
  else if offset = STM32_GPIO_REG_LCKR then
    ({ s with lckr := value % 2 ^ 32 }, [])
  else if offset = STM32_GPIO_REG_AFRL then
    ({ s with aflr := value % 2 ^ 32 }, [])
  else if offset = STM32_GPIO_REG_AFRH then
    ({ s with afhr := value % 2 ^ 32 }, [])
  else if offset = STM32_GPIO_REG_BRR then
    if s.family ≠ STM32_F4 then
      ({ s with odr := s.odr &&& ((value &&& 0xFFFF) ^^^ (2 ^ 32 - 1)) },
       [])
    else (s, [Event.logBadWrite offset])
  else (s, [Event.logBadWrite offset])

/-- `stm32_gpio_write`: disabled-port guard, register decode, then an
unconditional resolution pass (`stm32_gpio_update_state`) at the end of
the function. -/
def stm32_gpio_write (s : STM32GPIOState) (offset value : Nat) :
    STM32GPIOState × List Event :=
  if s.enable = false then (s, [Event.logDisabled])
  else
    let d := stm32_gpio_write_switch s offset value
    let u := stm32_gpio_update_state d.1
    (u.1, d.2 ++ u.2)

/-! ## Bit-helper lemmas -/

theorem extract32_one_lt_two (v i : Nat) : extract32 v i 1 < 2 := by
  have h : extract32 v i 1 = (v >>> i) % 2 := by
    simp [extract32, Nat.and_one_is_mod]
  rw [h]; exact Nat.mod_lt _ (by norm_num)

theorem extract32_one_eq_testBit (v i : Nat) :
    extract32 v i 1 = if v.testBit i then 1 else 0 := by
  have h : extract32 v i 1 = v / 2 ^ i % 2 := by
    simp [extract32, Nat.and_one_is_mod, Nat.shiftRight_eq_div_pow]
  rw [h, Nat.testBit_to_div_mod]
  rcases Nat.mod_two_eq_zero_or_one (v / 2 ^ i) with h2 | h2 <;> simp [h2]

theorem deposit32_lt (v s l f : Nat) : deposit32 v s l f < 2 ^ 32 := by
  unfold deposit32
  exact Nat.or_lt_two_pow
    (lt_of_le_of_lt Nat.and_le_left (Nat.mod_lt _ (by norm_num)))
    (lt_of_le_of_lt Nat.and_le_left (Nat.mod_lt _ (by norm_num)))

theorem testBit_deposit32_one (v s b j : Nat) (hs : s < 32) (hj : j < 32) :
    (deposit32 v s 1 b).testBit j =
      if j = s then b.testBit 0 else v.testBit j := by
  have hpow : (2 : Nat) ^ s < 2 ^ 32 := Nat.pow_lt_pow_right (by norm_num) hs
  have hmask : ((2 ^ 1 - 1) <<< s) % 2 ^ 32 = 2 ^ s := by
    rw [Nat.shiftLeft_eq]
    norm_num
    omega
  unfold deposit32
  simp only [hmask, Nat.testBit_lor, Nat.testBit_land, Nat.testBit_xor,
    Nat.testBit_mod_two_pow, Nat.testBit_shiftLeft,
    Nat.testBit_two_pow_sub_one, Nat.testBit_two_pow, hj]
  by_cases hjs : j = s
  · subst hjs
    simp [hj, Nat.sub_self]
  · have hsj : ¬ s = j := fun h => hjs h.symm
    simp [hjs, hsj, hj]

theorem extract32_deposit32_self (v i b : Nat) (hb : b < 2) (hi : i < 32) :
    extract32 (deposit32 v i 1 b) i 1 = b := by
  rw [extract32_one_eq_testBit, testBit_deposit32_one v i b i hi hi]
  simp only [if_pos rfl]
  interval_cases b <;> simp

theorem extract32_deposit32_ne (v i j b : Nat) (hi : i < 32) (hj : j < 32)
    (hij : j ≠ i) :
    extract32 (deposit32 v i 1 b) j 1 = extract32 v j 1 := by
  rw [extract32_one_eq_testBit, extract32_one_eq_testBit,
    testBit_deposit32_one v i b j hi hj, if_neg hij]

theorem deposit32_extract32_self (v i : Nat) (hv : v < 2 ^ 32) (hi : i < 32) :
    deposit32 v i 1 (extract32 v i 1) = v := by
  apply Nat.eq_of_testBit_eq
  intro j
  by_cases hj : j < 32
  · rw [testBit_deposit32_one _ _ _ _ hi hj]
    by_cases hji : j = i
    · subst hji
      rw [extract32_one_eq_testBit]
      cases h : v.testBit j <;> simp [h]
    · rw [if_neg hji]
  · have h1 : deposit32 v i 1 (extract32 v i 1) < 2 ^ j :=
      lt_of_lt_of_le (deposit32_lt v i 1 _)
        (Nat.pow_le_pow_right (by norm_num) (by omega))
    have h2 : v < 2 ^ j :=
      lt_of_lt_of_le hv (Nat.pow_le_pow_right (by norm_num) (by omega))
    rw [Nat.testBit_lt_two_pow h1, Nat.testBit_lt_two_pow h2]

theorem resolvedBit_lt_two (s : STM32GPIOState) (i : Nat) :
    resolvedBit s i < 2 := by
  unfold resolvedBit
  split
  · exact extract32_one_lt_two _ _
  · split
    · exact extract32_one_lt_two _ _
    · split <;> norm_num

/-! ## Characterization of the `stm32_gpio_update_state` loop -/

/-- IDR contents after the first `n` iterations of the loop in
`stm32_gpio_update_state`. -/
def idrAfter (s : STM32GPIOState) : Nat → Nat
  | 0 => s.idr
  | n + 1 => deposit32 (idrAfter s n) n 1 (resolvedBit s n)

/-- Events emitted by iteration `i` of the loop (the previous level is
read from the IDR accumulated so far). -/
def eventsAt (s : STM32GPIOState) (i : Nat) : List Event :=
  (if extract32 s.moder (i * 2) 2 = STM32_GPIO_MODE_OUTPUT ∧
      extract32 s.in_mask i 1 = 1 then
    [Event.logShortCircuit i]
  else []) ++
  (if resolvedBit s i ≠ extract32 (idrAfter s i) i 1 ∧
      extract32 s.moder (i * 2) 2 = STM32_GPIO_MODE_INPUT then
    [Event.inputIrq i (resolvedBit s i = 1)]
  else [])

/-- Events emitted by the first `n` iterations of the loop. -/
def pinEvents (s : STM32GPIOState) : Nat → List Event
  | 0 => []
  | n + 1 => pinEvents s n ++ eventsAt s n

theorem resolvedBit_set_idr (s : STM32GPIOState) (x i : Nat) :
    resolvedBit { s with idr := x } i = resolvedBit s i := rfl

theorem foldl_stepPin (s : STM32GPIOState) (n : Nat) (evs : List Event) :
    (List.range n).foldl
      (fun (acc : STM32GPIOState × List Event) i =>
        let p := stepPin acc.1 i
        (p.1, acc.2 ++ p.2)) (s, evs) =
      ({ s with idr := idrAfter s n }, evs ++ pinEvents s n) := by
  induction n with
  | zero => simp [idrAfter, pinEvents]
  | succ n ih =>
    rw [List.range_succ, List.foldl_append, ih]
    simp only [List.foldl_cons, List.foldl_nil, stepPin, eventsAt,
      resolvedBit_set_idr]
    refine Prod.ext ?_ ?_
    · simp [idrAfter]
    · simp [pinEvents, eventsAt, resolvedBit_set_idr, List.append_assoc]

theorem update_state_eq (s : STM32GPIOState) :
    stm32_gpio_update_state s =
      ({ s with idr := idrAfter s s.ngpio },
        pinEvents s s.ngpio ++ [Event.statePulse]) := by
  unfold stm32_gpio_update_state
  rw [foldl_stepPin]
  simp

theorem idrAfter_bit_ge (s : STM32GPIOState) (n j : Nat) (hn : n ≤ 32)
    (hj : n ≤ j) (hj32 : j < 32) :
    extract32 (idrAfter s n) j 1 = extract32 s.idr j 1 := by
  induction n with
  | zero => rfl
  | succ n ih =>
    rw [idrAfter, extract32_deposit32_ne _ _ _ _ (by omega) hj32 (by omega)]
    exact ih (by omega) (by omega)

theorem idrAfter_bit_lt (s : STM32GPIOState) (n j : Nat) (hn : n ≤ 32)
    (hj : j < n) :
    extract32 (idrAfter s n) j 1 = resolvedBit s j := by
  induction n with
  | zero => omega
  | succ n ih =>
    by_cases hjn : j = n
    · subst hjn
      rw [idrAfter,
        extract32_deposit32_self _ _ _ (resolvedBit_lt_two s j) (by omega)]
    · rw [idrAfter,
        extract32_deposit32_ne _ _ _ _ (by omega) (by omega) hjn]
      exact ih (by omega) (by omega)

theorem idrAfter_lt_two_pow (s : STM32GPIOState) (n : Nat)
    (hv : s.idr < 2 ^ 32) : idrAfter s n < 2 ^ 32 := by
  cases n with
  | zero => exact hv
  | succ n => exact deposit32_lt _ _ _ _

/-- If the IDR already agrees with the resolution function on the first
`n` pins, the loop leaves it untouched. -/
theorem idrAfter_eq_self (s : STM32GPIOState) (n : Nat) (hn : n ≤ 32)
    (hv : s.idr < 2 ^ 32)
    (hc : ∀ i, i < n → extract32 s.idr i 1 = resolvedBit s i) :
    idrAfter s n = s.idr := by
  induction n with
  | zero => rfl
  | succ n ih =>
    have hprev : idrAfter s n = s.idr :=
      ih (by omega) (fun i hi => hc i (by omega))
    rw [idrAfter, hprev, ← hc n (by omega)]
    exact deposit32_extract32_self _ _ hv (by omega)

/-- `resolve()` is idempotent: on a state whose IDR is already
consistent with the configuration, the resolution pass is the
identity. -/
def Consistent (s : STM32GPIOState) : Prop :=
  ∀ i, i < s.ngpio → extract32 s.idr i 1 = resolvedBit s i

theorem update_state_fst_of_consistent (s : STM32GPIOState)
    (hv : s.idr < 2 ^ 32) (hn : s.ngpio ≤ 32) (hc : Consistent s) :
    (stm32_gpio_update_state s).1 = s := by
  rw [update_state_eq]
  have h : idrAfter s s.ngpio = s.idr := idrAfter_eq_self s s.ngpio hn hv hc
  simp [h]

theorem eventsAt_eq (s : STM32GPIOState) (i : Nat) (hi : i < 32) :
    eventsAt s i =
      (if extract32 s.moder (i * 2) 2 = STM32_GPIO_MODE_OUTPUT ∧
          extract32 s.in_mask i 1 = 1 then
        [Event.logShortCircuit i]
      else []) ++
      (if resolvedBit s i ≠ extract32 s.idr i 1 ∧
          extract32 s.moder (i * 2) 2 = STM32_GPIO_MODE_INPUT then
        [Event.inputIrq i (resolvedBit s i = 1)]
      else []) := by
  unfold eventsAt
  rw [idrAfter_bit_ge s i i (by omega) le_rfl hi]

theorem mem_pinEvents_inputIrq (s : STM32GPIOState) (n i : Nat) (b : Bool)
    (hn : n ≤ 32) :
    Event.inputIrq i b ∈ pinEvents s n ↔
      i < n ∧ resolvedBit s i ≠ extract32 s.idr i 1 ∧
        extract32 s.moder (i * 2) 2 = STM32_GPIO_MODE_INPUT ∧
        b = decide (resolvedBit s i = 1) := by
  induction n with
  | zero => simp [pinEvents]
  | succ n ih =>
    rw [pinEvents, List.mem_append, ih (by omega), eventsAt_eq s n (by omega)]
    rw [List.mem_append]
    constructor
    · rintro (⟨h1, h2, h3, h4⟩ | h | h)
      · exact ⟨by omega, h2, h3, h4⟩
      · split at h <;> simp_all
      · split at h
        case isTrue hcond =>
          simp only [List.mem_singleton, Event.inputIrq.injEq] at h
          obtain ⟨hi2, hb2⟩ := h
          subst hi2
          exact ⟨by omega, hcond.1, hcond.2, hb2⟩
        case isFalse => simp_all
    · rintro ⟨h1, h2, h3, h4⟩
      by_cases hin : i < n
      · exact Or.inl ⟨hin, h2, h3, h4⟩
      · have hieq : i = n := by omega
        subst hieq
        refine Or.inr (Or.inr ?_)
        rw [if_pos ⟨h2, h3⟩]
        simp [h4]

theorem mem_pinEvents_shortCircuit (s : STM32GPIOState) (n i : Nat)
    (hn : n ≤ 32) :
    Event.logShortCircuit i ∈ pinEvents s n ↔
      i < n ∧ extract32 s.moder (i * 2) 2 = STM32_GPIO_MODE_OUTPUT ∧
        extract32 s.in_mask i 1 = 1 := by
  induction n with
  | zero => simp [pinEvents]
  | succ n ih =>
    rw [pinEvents, List.mem_append, ih (by omega), eventsAt_eq s n (by omega)]
    rw [List.mem_append]
    constructor
    · rintro (⟨h1, h2, h3⟩ | h | h)
      · exact ⟨by omega, h2, h3⟩
      · split at h
        case isTrue hcond =>
          simp only [List.mem_singleton, Event.logShortCircuit.injEq] at h
          exact ⟨by omega, h ▸ hcond.1, h ▸ hcond.2⟩
        case isFalse => simp_all
      · split at h <;> simp_all
    · rintro ⟨h1, h2, h3⟩
      by_cases hin : i < n
      · exact Or.inl ⟨hin, h2, h3⟩
      · have hieq : i = n := by omega
        subst hieq
        refine Or.inr (Or.inl ?_)
        rw [if_pos ⟨h2, h3⟩]
        simp

theorem statePulse_not_mem_pinEvents (s : STM32GPIOState) (n : Nat) :
    Event.statePulse ∉ pinEvents s n := by
  induction n with
  | zero => simp [pinEvents]
  | succ n ih =>
    rw [pinEvents, List.mem_append]
    rintro (h | h)
    · exact ih h
    · unfold eventsAt at h
      rw [List.mem_append] at h
      rcases h with h | h <;> split at h <;> simp_all

theorem count_statePulse_pinEvents (s : STM32GPIOState) (n : Nat) :
    (pinEvents s n).count Event.statePulse = 0 :=
  List.count_eq_zero.mpr (statePulse_not_mem_pinEvents s n)

theorem statePulse_mem_update_state (s : STM32GPIOState) :
    Event.statePulse ∈ (stm32_gpio_update_state s).2 := by
  rw [update_state_eq]
  simp

theorem update_state_consistent (s : STM32GPIOState) (hn : s.ngpio ≤ 32) :
    Consistent (stm32_gpio_update_state s).1 := by
  rw [update_state_eq]
  intro i hi
  simp only at hi ⊢
  rw [resolvedBit_set_idr]
  exact idrAfter_bit_lt s s.ngpio i hn hi

/-! ## Concrete states used by witnesses and counterexamples -/

/-- A 16-pin STM32F2 port A in its reset configuration (all registers
zero), enabled, with no external drive. -/
def zeroState : STM32GPIOState :=
  { moder := 0, otyper := 0, ospeedr := 0, pupdr := 0, idr := 0, odr := 0,
    lckr := 0, aflr := 0, afhr := 0, reset := false, enable := true,
    inp := 0, in_mask := 0, family := STM32_F2, port := STM32_GPIO_PORT_A,
    ngpio := 16 }

/-- Pin 2 in Input mode with a pull-up, level not yet resolved. -/
def pullUpState : STM32GPIOState := { zeroState with pupdr := 0x10 }

/-- Pin 0 in Output mode, ODR low, externally driven high. -/
def shortState : STM32GPIOState :=
  { zeroState with moder := 1, odr := 0, in_mask := 1, inp := 1 }

/-! ## C1 -/

/-- C1: after any `resolve()` step, IDR bit `i` follows exactly the
precedence external drive > internal output drive (ODR) > pull-up,
with pull-down and no-pull resolving low. -/
theorem stm32_gpio_resolve_precedence (s : STM32GPIOState) (i : Nat)
    (hn : s.ngpio ≤ STM32_GPIO_NPINS) (hi : i < s.ngpio) :
    extract32 (stm32_gpio_update_state s).1.idr i 1 =
      if extract32 s.in_mask i 1 = 1 then
        extract32 s.inp i 1
      else if extract32 s.moder (i * 2) 2 = STM32_GPIO_MODE_OUTPUT then
        extract32 s.odr i 1
      else if extract32 s.pupdr (i * 2) 2 = STM32_GPIO_PULL_UP then 1
      else 0 := by
  have h32 : s.ngpio ≤ 32 := by
    have : STM32_GPIO_NPINS = 16 := rfl
    omega
  rw [update_state_eq]
  exact idrAfter_bit_lt s s.ngpio i h32 hi

theorem stm32_gpio_resolve_precedence_witness :
    pullUpState.ngpio ≤ STM32_GPIO_NPINS ∧ 2 < pullUpState.ngpio ∧
    extract32 (stm32_gpio_update_state pullUpState).1.idr 2 1 =
      (if extract32 pullUpState.in_mask 2 1 = 1 then
        extract32 pullUpState.inp 2 1
      else if extract32 pullUpState.moder (2 * 2) 2 =
          STM32_GPIO_MODE_OUTPUT then
        extract32 pullUpState.odr 2 1
      else if extract32 pullUpState.pupdr (2 * 2) 2 =
          STM32_GPIO_PULL_UP then 1
      else 0) :=
  ⟨by decide, by decide,
    stm32_gpio_resolve_precedence pullUpState 2 (by decide) (by decide)⟩

/-! ## C5 -/

/-- C5: a per-pin edge IRQ for pin `i` is emitted by a `resolve()` step
if and only if the pin's resolved level differs from the previous IDR
bit and the pin is in Input mode, and the IRQ carries the new level. -/
theorem stm32_gpio_input_edge_irq (s : STM32GPIOState) (i : Nat) (b : Bool)
    (hn : s.ngpio ≤ STM32_GPIO_NPINS) :
    Event.inputIrq i b ∈ (stm32_gpio_update_state s).2 ↔
      i < s.ngpio ∧
        extract32 s.moder (i * 2) 2 = STM32_GPIO_MODE_INPUT ∧
        resolvedBit s i ≠ extract32 s.idr i 1 ∧
        b = decide (resolvedBit s i = 1) := by
  have h32 : s.ngpio ≤ 32 := by
    have : STM32_GPIO_NPINS = 16 := rfl
    omega
  rw [update_state_eq]
  simp only [List.mem_append, List.mem_singleton]
  rw [mem_pinEvents_inputIrq s s.ngpio i b h32]
  constructor
  · rintro (⟨h1, h2, h3, h4⟩ | h)
    · exact ⟨h1, h3, h2, h4⟩
    · simp at h
  · rintro ⟨h1, h2, h3, h4⟩
    exact Or.inl ⟨h1, h3, h2, h4⟩

theorem stm32_gpio_input_edge_irq_witness :
    Event.inputIrq 2 true ∈ (stm32_gpio_update_state pullUpState).2 :=
  (stm32_gpio_input_edge_irq pullUpState 2 true (by decide)).mpr (by decide)

/-! ## C9 -/

/-- C9: a `resolve()` step reports a short-circuit diagnostic for pin
`i` if and only if the pin is in Output mode while externally driven;
the hazard is non-fatal and the external level still wins. -/
theorem stm32_gpio_short_circuit_hazard (s : STM32GPIOState) (i : Nat)
    (hn : s.ngpio ≤ STM32_GPIO_NPINS) :
    (Event.logShortCircuit i ∈ (stm32_gpio_update_state s).2 ↔
      i < s.ngpio ∧
        extract32 s.moder (i * 2) 2 = STM32_GPIO_MODE_OUTPUT ∧
        extract32 s.in_mask i 1 = 1) ∧
    (i < s.ngpio → extract32 s.in_mask i 1 = 1 →
      extract32 (stm32_gpio_update_state s).1.idr i 1 =
        extract32 s.inp i 1) := by
  have h32 : s.ngpio ≤ 32 := by
    have : STM32_GPIO_NPINS = 16 := rfl
    omega
  constructor
  · rw [update_state_eq]
    simp only [List.mem_append, List.mem_singleton]
    rw [mem_pinEvents_shortCircuit s s.ngpio i h32]
    constructor
    · rintro (h | h)
      · exact h
      · simp at h
    · exact Or.inl
  · intro hi hm
    rw [update_state_eq]
    show extract32 (idrAfter s s.ngpio) i 1 = _
    rw [idrAfter_bit_lt s s.ngpio i h32 hi]
    unfold resolvedBit
    rw [if_pos hm]

theorem stm32_gpio_short_circuit_hazard_witness :
    Event.logShortCircuit 0 ∈ (stm32_gpio_update_state shortState).2 ∧
    extract32 (stm32_gpio_update_state shortState).1.idr 0 1 =
      extract32 shortState.inp 0 1 :=
  ⟨(stm32_gpio_short_circuit_hazard shortState 0 (by decide)).1.mpr
      (by decide),
    (stm32_gpio_short_circuit_hazard shortState 0 (by decide)).2
      (by decide) (by decide)⟩

/-! ## Write-path helper lemmas -/

theorem write_switch_moder (s : STM32GPIOState) (value : Nat) :
    stm32_gpio_write_switch s STM32_GPIO_REG_MODER value =
      ({ s with moder := value % 2 ^ 32 }, []) := rfl

theorem write_switch_otyper (s : STM32GPIOState) (value : Nat) :
    stm32_gpio_write_switch s STM32_GPIO_REG_OTYPER value =
      ({ s with otyper := value % 2 ^ 32 }, []) := rfl

theorem write_switch_ospeedr (s : STM32GPIOState) (value : Nat) :
    stm32_gpio_write_switch s STM32_GPIO_REG_OSPEEDR value =
      ({ s with ospeedr := value % 2 ^ 32 }, []) := rfl

theorem write_switch_pupdr (s : STM32GPIOState) (value : Nat) :
    stm32_gpio_write_switch s STM32_GPIO_REG_PUPDR value =
      ({ s with pupdr := value % 2 ^ 32 }, []) := rfl

theorem write_switch_idr (s : STM32GPIOState) (value : Nat) :
    stm32_gpio_write_switch s STM32_GPIO_REG_IDR value =
      (s, []) := rfl

theorem write_switch_odr (s : STM32GPIOState) (value : Nat) :
    stm32_gpio_write_switch s STM32_GPIO_REG_ODR value =
      ({ s with odr := value % 2 ^ 32 }, []) := rfl

theorem write_switch_bsrr (s : STM32GPIOState) (value : Nat) :
    stm32_gpio_write_switch s STM32_GPIO_REG_BSRR value =
      ({ s with odr :=
        (s.odr &&& (((value >>> 16) &&& 0xFFFF) ^^^ (2 ^ 32 - 1)))
          ||| (value &&& 0xFFFF) }, []) := rfl

theorem write_switch_lckr (s : STM32GPIOState) (value : Nat) :
    stm32_gpio_write_switch s STM32_GPIO_REG_LCKR value =
      ({ s with lckr := value % 2 ^ 32 }, []) := rfl

theorem write_switch_afrl (s : STM32GPIOState) (value : Nat) :
    stm32_gpio_write_switch s STM32_GPIO_REG_AFRL value =
      ({ s with aflr := value % 2 ^ 32 }, []) := rfl

theorem write_switch_afrh (s : STM32GPIOState) (value : Nat) :
    stm32_gpio_write_switch s STM32_GPIO_REG_AFRH value =
      ({ s with afhr := value % 2 ^ 32 }, []) := rfl

theorem write_switch_brr_legacy (s : STM32GPIOState) (value : Nat)
    (h : s.family ≠ STM32_F4) :
    stm32_gpio_write_switch s STM32_GPIO_REG_BRR value =
      ({ s with odr := s.odr &&& ((value &&& 0xFFFF) ^^^ (2 ^ 32 - 1)) },
        []) := by
  unfold stm32_gpio_write_switch
  rw [if_neg (by decide), if_neg (by decide), if_neg (by decide),
    if_neg (by decide), if_neg (by decide), if_neg (by decide),
    if_neg (by decide), if_neg (by decide), if_neg (by decide),
    if_neg (by decide), if_pos rfl, if_pos h]

theorem write_switch_brr_f4 (s : STM32GPIOState) (value : Nat)
    (h : s.family = STM32_F4) :
    stm32_gpio_write_switch s STM32_GPIO_REG_BRR value =
      (s, [Event.logBadWrite STM32_GPIO_REG_BRR]) := by
  unfold stm32_gpio_write_switch
  rw [if_neg (by decide), if_neg (by decide), if_neg (by decide),
    if_neg (by decide), if_neg (by decide), if_neg (by decide),
    if_neg (by decide), if_neg (by decide), if_neg (by decide),
    if_neg (by decide), if_pos rfl, if_neg (by simp [h])]

theorem write_switch_default (s : STM32GPIOState) (offset value : Nat)
    (h1 : offset ≠ STM32_GPIO_REG_MODER) (h2 : offset ≠ STM32_GPIO_REG_OTYPER) (h3 : offset ≠ STM32_GPIO_REG_OSPEEDR) (h4 : offset ≠ STM32_GPIO_REG_PUPDR) (h5 : offset ≠ STM32_GPIO_REG_IDR) (h6 : offset ≠ STM32_GPIO_REG_ODR) (h7 : offset ≠ STM32_GPIO_REG_BSRR) (h8 : offset ≠ STM32_GPIO_REG_LCKR) (h9 : offset ≠ STM32_GPIO_REG_AFRL) (h10 : offset ≠ STM32_GPIO_REG_AFRH)
    (h11 : offset ≠ STM32_GPIO_REG_BRR) :
    stm32_gpio_write_switch s offset value =
      (s, [Event.logBadWrite offset]) := by
  unfold stm32_gpio_write_switch
  rw [if_neg h1,
    if_neg h2,
    if_neg h3,
    if_neg h4,
    if_neg h5,
    if_neg h6,
    if_neg h7,
    if_neg h8,
    if_neg h9,
    if_neg h10,
    if_neg h11]

theorem write_switch_snd (s : STM32GPIOState) (offset value : Nat) :
    (stm32_gpio_write_switch s offset value).2 = [] ∨
    (stm32_gpio_write_switch s offset value).2 =
      [Event.logBadWrite offset] := by
  by_cases h_moder : offset = STM32_GPIO_REG_MODER
  · subst h_moder
    rw [write_switch_moder]
    exact Or.inl rfl
  by_cases h_otyper : offset = STM32_GPIO_REG_OTYPER
  · subst h_otyper
    rw [write_switch_otyper]
    exact Or.inl rfl
  by_cases h_ospeedr : offset = STM32_GPIO_REG_OSPEEDR
  · subst h_ospeedr
    rw [write_switch_ospeedr]
    exact Or.inl rfl
  by_cases h_pupdr : offset = STM32_GPIO_REG_PUPDR
  · subst h_pupdr
    rw [write_switch_pupdr]
    exact Or.inl rfl
  by_cases h_idr : offset = STM32_GPIO_REG_IDR
  · subst h_idr
    rw [write_switch_idr]
    exact Or.inl rfl
  by_cases h_odr : offset = STM32_GPIO_REG_ODR
  · subst h_odr
    rw [write_switch_odr]
    exact Or.inl rfl
  by_cases h_bsrr : offset = STM32_GPIO_REG_BSRR
  · subst h_bsrr
    rw [write_switch_bsrr]
    exact Or.inl rfl
  by_cases h_lckr : offset = STM32_GPIO_REG_LCKR
  · subst h_lckr
    rw [write_switch_lckr]
    exact Or.inl rfl
  by_cases h_afrl : offset = STM32_GPIO_REG_AFRL
  · subst h_afrl
    rw [write_switch_afrl]
    exact Or.inl rfl
  by_cases h_afrh : offset = STM32_GPIO_REG_AFRH
  · subst h_afrh
    rw [write_switch_afrh]
    exact Or.inl rfl
  by_cases h_brr : offset = STM32_GPIO_REG_BRR
  · subst h_brr
    by_cases hf : s.family = STM32_F4
    · rw [write_switch_brr_f4 s value hf]
      exact Or.inr rfl
    · rw [write_switch_brr_legacy s value hf]
      exact Or.inl rfl
  · rw [write_switch_default s offset value h_moder h_otyper h_ospeedr
      h_pupdr h_idr h_odr h_bsrr h_lckr h_afrl h_afrh h_brr]
    exact Or.inr rfl

theorem stm32_gpio_write_enabled (s : STM32GPIOState) (offset value : Nat)
    (hen : s.enable = true) :
    stm32_gpio_write s offset value =
      ((stm32_gpio_update_state
          (stm32_gpio_write_switch s offset value).1).1,
        (stm32_gpio_write_switch s offset value).2 ++
          (stm32_gpio_update_state
            (stm32_gpio_write_switch s offset value).1).2) := by
  unfold stm32_gpio_write
  rw [if_neg (by simp [hen])]

theorem logBadWrite_not_mem_pinEvents (s : STM32GPIOState) (n o : Nat) :
    Event.logBadWrite o ∉ pinEvents s n := by
  induction n with
  | zero => simp [pinEvents]
  | succ n ih =>
    rw [pinEvents, List.mem_append]
    rintro (h | h)
    · exact ih h
    · unfold eventsAt at h
      rw [List.mem_append] at h
      rcases h with h | h <;> split at h <;> simp_all

/-! ## C6 -/

/-- C6: every write while powered ends with exactly one resolution pass,
whose port-level pulse is the last event and occurs exactly once —
for every offset, including invalid ones, the read-only IDR, and
writes that change nothing. -/
theorem stm32_gpio_write_always_pulses (s : STM32GPIOState)
    (offset value : Nat) (hen : s.enable = true) :
    (stm32_gpio_write s offset value).2.count Event.statePulse = 1 ∧
    (stm32_gpio_write s offset value).2.getLast? =
      some Event.statePulse := by
  rw [stm32_gpio_write_enabled s offset value hen, update_state_eq]
  constructor
  · simp only [List.count_append]
    rw [count_statePulse_pinEvents]
    rcases write_switch_snd s offset value with h | h <;> rw [h] <;> simp
  · simp only [← List.append_assoc]
    rw [List.getLast?_concat]

theorem stm32_gpio_write_always_pulses_witness :
    zeroState.enable = true ∧
    (stm32_gpio_write zeroState STM32_GPIO_REG_IDR 0xFFFF).2.count
        Event.statePulse = 1 ∧
    (stm32_gpio_write zeroState STM32_GPIO_REG_IDR 0xFFFF).2.getLast? =
      some Event.statePulse :=
  ⟨by decide,
    (stm32_gpio_write_always_pulses zeroState STM32_GPIO_REG_IDR 0xFFFF
      (by decide)).1,
    (stm32_gpio_write_always_pulses zeroState STM32_GPIO_REG_IDR 0xFFFF
      (by decide)).2⟩

/-! ## C3 -/

/-- C3: a BSRR write in a powered state updates ODR to
`(odr & ~reset_mask) | set_mask` (32-bit complement), and when a pin's
bit is set in both the set mask (low half) and the reset mask (high
half), the resulting ODR bit is set: set wins over reset. -/
theorem stm32_gpio_bsrr_set_wins (s : STM32GPIOState) (v : Nat)
    (hen : s.enable = true) :
    (stm32_gpio_write s STM32_GPIO_REG_BSRR v).1.odr =
      ((s.odr &&& (((v >>> 16) &&& 0xFFFF) ^^^ (2 ^ 32 - 1)))
        ||| (v &&& 0xFFFF)) ∧
    ∀ i, i < 16 → v.testBit i = true → v.testBit (i + 16) = true →
      (stm32_gpio_write s STM32_GPIO_REG_BSRR v).1.odr.testBit i =
        true := by
  rw [stm32_gpio_write_enabled s _ v hen, write_switch_bsrr,
    update_state_eq]
  constructor
  · rfl
  · intro i hi h1 _
    show ((s.odr &&& (((v >>> 16) &&& 0xFFFF) ^^^ (2 ^ 32 - 1)))
        ||| (v &&& 0xFFFF)).testBit i = true
    have hff : (0xFFFF : Nat) = 2 ^ 16 - 1 := by norm_num
    rw [Nat.testBit_lor, Nat.testBit_land, hff, Nat.testBit_land,
      Nat.testBit_two_pow_sub_one, h1]
    simp [hi]

theorem stm32_gpio_bsrr_set_wins_witness :
    zeroState.enable = true ∧
    (stm32_gpio_write zeroState STM32_GPIO_REG_BSRR
        ((1 <<< 16) ||| 1)).1.odr.testBit 0 = true :=
  ⟨by decide,
    (stm32_gpio_bsrr_set_wins zeroState ((1 <<< 16) ||| 1) (by decide)).2
      0 (by decide) (by decide) (by decide)⟩

/-! ## C4 -/

/-- Pin 5 and 7 of ODR set, STM32F2 (a family that has BRR). -/
def brrState : STM32GPIOState := { zeroState with odr := 0xA0 }

/-- Same configuration on an STM32F4 (no BRR register). -/
def brrStateF4 : STM32GPIOState := { brrState with family := STM32_F4 }

/-- C4: on a family with BRR, a BRR write clears exactly the requested
ODR bits (low 16 bits of the value) and leaves every other register
field of the decode step unchanged, with no invalid-offset diagnostic;
on STM32F4 (no BRR) the same write changes nothing (on a resolution
fixed point) and is reported as a bad offset. -/
theorem stm32_gpio_brr_by_family (s : STM32GPIOState) (v : Nat)
    (hen : s.enable = true) (hv : s.idr < 2 ^ 32)
    (hn : s.ngpio ≤ STM32_GPIO_NPINS) (hc : Consistent s) :
    (s.family ≠ STM32_F4 →
      ((stm32_gpio_write s STM32_GPIO_REG_BRR v).1.odr =
          s.odr &&& ((v &&& 0xFFFF) ^^^ (2 ^ 32 - 1)) ∧
        (∀ i, i < 32 →
          (stm32_gpio_write s STM32_GPIO_REG_BRR v).1.odr.testBit i =
            (s.odr.testBit i && !(decide (i < 16) && v.testBit i))) ∧
        (stm32_gpio_write s STM32_GPIO_REG_BRR v).1.moder = s.moder ∧
        (stm32_gpio_write s STM32_GPIO_REG_BRR v).1.otyper = s.otyper ∧
        (stm32_gpio_write s STM32_GPIO_REG_BRR v).1.ospeedr = s.ospeedr ∧
        (stm32_gpio_write s STM32_GPIO_REG_BRR v).1.pupdr = s.pupdr ∧
        (stm32_gpio_write s STM32_GPIO_REG_BRR v).1.lckr = s.lckr ∧
        (stm32_gpio_write s STM32_GPIO_REG_BRR v).1.aflr = s.aflr ∧
        (stm32_gpio_write s STM32_GPIO_REG_BRR v).1.afhr = s.afhr ∧
        Event.logBadWrite STM32_GPIO_REG_BRR ∉
          (stm32_gpio_write s STM32_GPIO_REG_BRR v).2)) ∧
    (s.family = STM32_F4 →
      (stm32_gpio_write s STM32_GPIO_REG_BRR v).1 = s ∧
      Event.logBadWrite STM32_GPIO_REG_BRR ∈
        (stm32_gpio_write s STM32_GPIO_REG_BRR v).2) := by
  have h32 : s.ngpio ≤ 32 := by
    have : STM32_GPIO_NPINS = 16 := rfl
    omega
  constructor
  · intro hf
    rw [stm32_gpio_write_enabled s _ v hen, write_switch_brr_legacy s v hf,
      update_state_eq]
    refine ⟨rfl, ?_, rfl, rfl, rfl, rfl, rfl, rfl, rfl, ?_⟩
    · intro i hi
      show (s.odr &&& ((v &&& 0xFFFF) ^^^ (2 ^ 32 - 1))).testBit i = _
      have hff : (0xFFFF : Nat) = 2 ^ 16 - 1 := by norm_num
      rw [Nat.testBit_land, hff, Nat.testBit_xor, Nat.testBit_land,
        Nat.testBit_two_pow_sub_one, Nat.testBit_two_pow_sub_one]
      cases hvb : v.testBit i <;> cases hlo : decide (i < 16) <;>
        cases hob : s.odr.testBit i <;> simp [hvb, hlo, hob, hi]
    · intro hmem
      simp only [List.nil_append, List.mem_append, List.mem_singleton] at hmem
      rcases hmem with h | h
      · exact logBadWrite_not_mem_pinEvents _ _ _ h
      · cases h
  · intro hf
    rw [stm32_gpio_write_enabled s _ v hen, write_switch_brr_f4 s v hf]
    constructor
    · exact update_state_fst_of_consistent s hv h32 hc
    · simp

theorem stm32_gpio_brr_by_family_witness :
    (stm32_gpio_write brrState STM32_GPIO_REG_BRR 0xFF).1.odr =
      brrState.odr &&& ((0xFF &&& 0xFFFF) ^^^ (2 ^ 32 - 1)) ∧
    (stm32_gpio_write brrStateF4 STM32_GPIO_REG_BRR 0xFF).1 =
      brrStateF4 ∧
    Event.logBadWrite STM32_GPIO_REG_BRR ∈
      (stm32_gpio_write brrStateF4 STM32_GPIO_REG_BRR 0xFF).2 :=
  ⟨((stm32_gpio_brr_by_family brrState 0xFF (by decide) (by decide)
      (by decide) (by unfold Consistent; decide)).1 (by decide)).1,
    ((stm32_gpio_brr_by_family brrStateF4 0xFF (by decide) (by decide)
      (by decide) (by unfold Consistent; decide)).2 rfl).1,
    ((stm32_gpio_brr_by_family brrStateF4 0xFF (by decide) (by decide)
      (by decide) (by unfold Consistent; decide)).2 rfl).2⟩

/-! ## Family/port reset-default table (from `stm32_gpio_reset`) -/

def stm32_gpio_reset_moder (family port : Nat) : Nat :=
  if family = STM32_F4 then
    if port = STM32_GPIO_PORT_A then 0xA8000000
    else if port = STM32_GPIO_PORT_B then 0x00000280
    else 0
  else 0

def stm32_gpio_reset_ospeedr (family port : Nat) : Nat :=
  if family = STM32_F4 ∧ port = STM32_GPIO_PORT_B then 0x000000C0 else 0

def stm32_gpio_reset_pupdr (family port : Nat) : Nat :=
  if family = STM32_F4 then
    if port = STM32_GPIO_PORT_A then 0x64000000
    else if port = STM32_GPIO_PORT_B then 0x00000100
    else 0
  else 0

/-! ## C2 -/

/-- A port held in reset, powered, with all registers at their
family/port reset defaults (STM32F2 port A: all zero). -/
def resetHeldState : STM32GPIOState := { zeroState with reset := true }

/-- C2 counterexample: with `held_in_reset` true and the port powered,
a MODER write does take effect, so afterwards MODER differs from the
family/port reset default — the reset flag does not freeze the
registers. -/
theorem stm32_gpio_write_during_reset_cex :
    resetHeldState.reset = true ∧ resetHeldState.enable = true ∧
    stm32_gpio_reset_moder resetHeldState.family resetHeldState.port
      = 0 ∧
    (stm32_gpio_write resetHeldState STM32_GPIO_REG_MODER 1).1.moder
      = 1 := by
  decide

theorem idrAfter_set_reset (s : STM32GPIOState) (b : Bool) (n : Nat) :
    idrAfter { s with reset := b } n = idrAfter s n := by
  induction n with
  | zero => rfl
  | succ n ih => simp [idrAfter, ih]; rfl

theorem eventsAt_set_reset (s : STM32GPIOState) (b : Bool) (i : Nat) :
    eventsAt { s with reset := b } i = eventsAt s i := by
  unfold eventsAt
  rw [idrAfter_set_reset]
  rfl

theorem pinEvents_set_reset (s : STM32GPIOState) (b : Bool) (n : Nat) :
    pinEvents { s with reset := b } n = pinEvents s n := by
  induction n with
  | zero => rfl
  | succ n ih => rw [pinEvents, pinEvents, ih, eventsAt_set_reset]

theorem update_state_set_reset (s : STM32GPIOState) (b : Bool) :
    stm32_gpio_update_state { s with reset := b } =
      ({ (stm32_gpio_update_state s).1 with reset := b },
        (stm32_gpio_update_state s).2) := by
  rw [update_state_eq, update_state_eq]
  rw [show ({ s with reset := b } : STM32GPIOState).ngpio = s.ngpio
    from rfl]
  rw [idrAfter_set_reset, pinEvents_set_reset]

theorem write_switch_set_reset (s : STM32GPIOState) (b : Bool)
    (offset value : Nat) :
    stm32_gpio_write_switch { s with reset := b } offset value =
      ({ (stm32_gpio_write_switch s offset value).1 with reset := b },
        (stm32_gpio_write_switch s offset value).2) := by
  by_cases h1 : offset = STM32_GPIO_REG_MODER
  · subst h1; rw [write_switch_moder, write_switch_moder]
  by_cases h2 : offset = STM32_GPIO_REG_OTYPER
  · subst h2; rw [write_switch_otyper, write_switch_otyper]
  by_cases h3 : offset = STM32_GPIO_REG_OSPEEDR
  · subst h3; rw [write_switch_ospeedr, write_switch_ospeedr]
  by_cases h4 : offset = STM32_GPIO_REG_PUPDR
  · subst h4; rw [write_switch_pupdr, write_switch_pupdr]
  by_cases h5 : offset = STM32_GPIO_REG_IDR
  · subst h5; rw [write_switch_idr, write_switch_idr]
  by_cases h6 : offset = STM32_GPIO_REG_ODR
  · subst h6; rw [write_switch_odr, write_switch_odr]
  by_cases h7 : offset = STM32_GPIO_REG_BSRR
  · subst h7; rw [write_switch_bsrr, write_switch_bsrr]
  by_cases h8 : offset = STM32_GPIO_REG_LCKR
  · subst h8; rw [write_switch_lckr, write_switch_lckr]
  by_cases h9 : offset = STM32_GPIO_REG_AFRL
  · subst h9; rw [write_switch_afrl, write_switch_afrl]
  by_cases h10 : offset = STM32_GPIO_REG_AFRH
  · subst h10; rw [write_switch_afrh, write_switch_afrh]
  by_cases h11 : offset = STM32_GPIO_REG_BRR
  · subst h11
    by_cases hf : s.family = STM32_F4
    · rw [write_switch_brr_f4 ({ s with reset := b }) value
        (show ({ s with reset := b } : STM32GPIOState).family = STM32_F4
          from hf),
        write_switch_brr_f4 s value hf]
    · rw [write_switch_brr_legacy ({ s with reset := b }) value
        (show ({ s with reset := b } : STM32GPIOState).family ≠ STM32_F4
          from hf),
        write_switch_brr_legacy s value hf]
  · rw [write_switch_default _ _ _ h1 h2 h3 h4 h5 h6 h7 h8 h9 h10 h11,
      write_switch_default _ _ _ h1 h2 h3 h4 h5 h6 h7 h8 h9 h10 h11]

/-- C2 amended: `held_in_reset` does not gate register writes.  A write
issued while the port is held in reset has exactly the same effect on
the register file (and emits the same events) as the same write with
the reset line released; registers are forced to the reset defaults
only at the rising edge of the reset line. -/
theorem stm32_gpio_write_ignores_reset_flag (s : STM32GPIOState)
    (offset value : Nat) :
    stm32_gpio_write { s with reset := true } offset value =
      ({ (stm32_gpio_write { s with reset := false } offset value).1
          with reset := true },
        (stm32_gpio_write { s with reset := false } offset value).2) := by
  unfold stm32_gpio_write
  simp only [show ({ s with reset := true } : STM32GPIOState).enable
      = s.enable from rfl,
    show ({ s with reset := false } : STM32GPIOState).enable
      = s.enable from rfl]
  by_cases hen : s.enable = false
  · rw [if_pos hen, if_pos hen]
  · rw [if_neg hen, if_neg hen]
    simp only [write_switch_set_reset, update_state_set_reset]

/-- Register contents established by `stm32_gpio_reset`, expressed
through the family/port default table. -/
theorem stm32_gpio_reset_fields (s : STM32GPIOState) :
    (stm32_gpio_reset s).1.moder =
        stm32_gpio_reset_moder s.family s.port ∧
      (stm32_gpio_reset s).1.otyper = 0 ∧
      (stm32_gpio_reset s).1.ospeedr =
        stm32_gpio_reset_ospeedr s.family s.port ∧
      (stm32_gpio_reset s).1.pupdr =
        stm32_gpio_reset_pupdr s.family s.port ∧
      (stm32_gpio_reset s).1.odr = 0 ∧
      (stm32_gpio_reset s).1.lckr = 0 ∧
      (stm32_gpio_reset s).1.aflr = 0 ∧
      (stm32_gpio_reset s).1.afhr = 0 ∧
      Event.statePulse ∈ (stm32_gpio_reset s).2 := by
  unfold stm32_gpio_reset
  by_cases hf : s.family = STM32_F4
  · by_cases hpa : s.port = STM32_GPIO_PORT_A
    · simp [update_state_eq, hf, hpa, stm32_gpio_reset_moder,
        stm32_gpio_reset_ospeedr, stm32_gpio_reset_pupdr,
        statePulse_mem_update_state, STM32_GPIO_PORT_A,
        STM32_GPIO_PORT_B]
    · by_cases hpb : s.port = STM32_GPIO_PORT_B
      · simp [update_state_eq, hf, hpa, hpb, stm32_gpio_reset_moder,
          stm32_gpio_reset_ospeedr, stm32_gpio_reset_pupdr,
          statePulse_mem_update_state, STM32_GPIO_PORT_A,
          STM32_GPIO_PORT_B]
      · simp [update_state_eq, hf, hpa, hpb, stm32_gpio_reset_moder,
          stm32_gpio_reset_ospeedr, stm32_gpio_reset_pupdr,
          statePulse_mem_update_state]
  · simp [update_state_eq, hf, stm32_gpio_reset_moder,
      stm32_gpio_reset_ospeedr, stm32_gpio_reset_pupdr,
      statePulse_mem_update_state]

/-! ## C8 -/

/-- C8: on the rising edge of the reset line the configuration
registers are forced exactly to the family/port default table and a
resolution pass runs; on the falling edge a resolution pass runs and
no register field changes (only the reset flag drops). -/
theorem stm32_gpio_reset_edges (s : STM32GPIOState) (v : Int)
    (hwf : s.idr < 2 ^ 32) (hn : s.ngpio ≤ STM32_GPIO_NPINS) :
    (s.reset = false → v ≠ 0 →
      (stm32_gpio_irq_reset s v).1.moder =
          stm32_gpio_reset_moder s.family s.port ∧
        (stm32_gpio_irq_reset s v).1.otyper = 0 ∧
        (stm32_gpio_irq_reset s v).1.ospeedr =
          stm32_gpio_reset_ospeedr s.family s.port ∧
        (stm32_gpio_irq_reset s v).1.pupdr =
          stm32_gpio_reset_pupdr s.family s.port ∧
        (stm32_gpio_irq_reset s v).1.odr = 0 ∧
        (stm32_gpio_irq_reset s v).1.lckr = 0 ∧
        (stm32_gpio_irq_reset s v).1.aflr = 0 ∧
        (stm32_gpio_irq_reset s v).1.afhr = 0 ∧
        Event.statePulse ∈ (stm32_gpio_irq_reset s v).2) ∧
    (s.reset = true → v = 0 → Consistent s →
      (stm32_gpio_irq_reset s v).1 = { s with reset := false } ∧
      Event.statePulse ∈ (stm32_gpio_irq_reset s v).2) := by
  have h32 : s.ngpio ≤ 32 := by
    have : STM32_GPIO_NPINS = 16 := rfl
    omega
  constructor
  · intro hr hv
    unfold stm32_gpio_irq_reset
    rw [if_pos (by simp [hr, hv])]
    rw [if_pos (by simp [hv])]
    exact stm32_gpio_reset_fields { s with reset := (v ≠ 0 : Bool) }
  · intro hr hv hc
    subst hv
    unfold stm32_gpio_irq_reset
    rw [if_pos (by simp [hr])]
    rw [if_neg (by simp)]
    have hs1 : ({ s with reset := ((0 : Int) ≠ 0) } : STM32GPIOState) =
        { s with reset := false } := by
      norm_num
    rw [hs1]
    exact ⟨update_state_fst_of_consistent _ hwf h32
        (fun i hi => hc i hi),
      statePulse_mem_update_state _⟩

theorem stm32_gpio_reset_edges_witness :
    ((stm32_gpio_irq_reset zeroState 1).1.moder =
        stm32_gpio_reset_moder zeroState.family zeroState.port ∧
      Event.statePulse ∈ (stm32_gpio_irq_reset zeroState 1).2) ∧
    ((stm32_gpio_irq_reset resetHeldState 0).1 =
        { resetHeldState with reset := false } ∧
      Event.statePulse ∈ (stm32_gpio_irq_reset resetHeldState 0).2) :=
  ⟨⟨((stm32_gpio_reset_edges zeroState 1 (by decide) (by decide)).1
        rfl (by decide)).1,
      ((stm32_gpio_reset_edges zeroState 1 (by decide) (by decide)).1
        rfl (by decide)).2.2.2.2.2.2.2.2⟩,
    (stm32_gpio_reset_edges resetHeldState 0 (by decide) (by decide)).2
      rfl rfl (by unfold Consistent; decide)⟩

/-! ## C7 -/

theorem write_disabled (s : STM32GPIOState) (o v : Nat)
    (h : s.enable = false) :
    stm32_gpio_write s o v = (s, [Event.logDisabled]) := by
  unfold stm32_gpio_write
  rw [if_pos h]

theorem read_disabled (s : STM32GPIOState) (o : Nat)
    (h : s.enable = false) :
    stm32_gpio_read s o = (0, [Event.logDisabled]) := by
  unfold stm32_gpio_read
  rw [if_pos h]

/-- A sequence of guest register writes, applied in order. -/
def applyWrites (s : STM32GPIOState) : List (Nat × Nat) → STM32GPIOState
  | [] => s
  | w :: ws => applyWrites (stm32_gpio_write s w.1 w.2).1 ws

theorem applyWrites_disabled (s : STM32GPIOState)
    (ws : List (Nat × Nat)) (h : s.enable = false) :
    applyWrites s ws = s := by
  induction ws with
  | nil => rfl
  | cons w ws ih =>
    show applyWrites (stm32_gpio_write s w.1 w.2).1 ws = s
    rw [write_disabled s w.1 w.2 h]
    exact ih

/-- C7: while unpowered, every read returns 0 with the disabled
diagnostic and every write is a pure no-op with no notification; the
registers survive the disabled period, and after re-enabling the port
every read returns exactly what it returned before the disable. -/
theorem stm32_gpio_disabled_access (s : STM32GPIOState)
    (ws : List (Nat × Nat)) (hen : s.enable = true)
    (hwf : s.idr < 2 ^ 32) (hn : s.ngpio ≤ STM32_GPIO_NPINS)
    (hc : Consistent s) :
    (stm32_gpio_irq_enable s 0).1 = { s with enable := false } ∧
    (∀ o, stm32_gpio_read { s with enable := false } o =
      (0, [Event.logDisabled])) ∧
    (∀ o v, stm32_gpio_write { s with enable := false } o v =
      ({ s with enable := false }, [Event.logDisabled])) ∧
    applyWrites { s with enable := false } ws =
      { s with enable := false } ∧
    (stm32_gpio_irq_enable
        (applyWrites (stm32_gpio_irq_enable s 0).1 ws) 1).1 = s ∧
    (∀ o, stm32_gpio_read
        (stm32_gpio_irq_enable
          (applyWrites (stm32_gpio_irq_enable s 0).1 ws) 1).1 o =
      stm32_gpio_read s o) := by
  have h32 : s.ngpio ≤ 32 := by
    have : STM32_GPIO_NPINS = 16 := rfl
    omega
  have hdis : (stm32_gpio_irq_enable s 0).1 = { s with enable := false } := by
    unfold stm32_gpio_irq_enable
    rw [if_pos (by simp [hen])]
    have hs1 : ({ s with enable := ((0 : Int) ≠ 0) } : STM32GPIOState) =
        { s with enable := false } := by
      norm_num
    rw [hs1]
    exact update_state_fst_of_consistent _ hwf h32 (fun i hi => hc i hi)
  have hreen : (stm32_gpio_irq_enable
      (applyWrites (stm32_gpio_irq_enable s 0).1 ws) 1).1 = s := by
    rw [hdis, applyWrites_disabled _ ws rfl]
    unfold stm32_gpio_irq_enable
    rw [if_pos (by simp)]
    have hs1 : ({ { s with enable := false } with
        enable := ((1 : Int) ≠ 0) } : STM32GPIOState) = s := by
      cases s
      simp_all
    rw [hs1]
    exact update_state_fst_of_consistent _ hwf h32 hc
  refine ⟨hdis, ?_, ?_, ?_, hreen, ?_⟩
  · intro o
    exact read_disabled _ o rfl
  · intro o v
    exact write_disabled _ o v rfl
  · exact applyWrites_disabled _ ws rfl
  · intro o
    rw [hreen]

theorem stm32_gpio_disabled_access_witness :
    (stm32_gpio_irq_enable zeroState 0).1 =
      { zeroState with enable := false } ∧
    stm32_gpio_write { zeroState with enable := false }
        STM32_GPIO_REG_MODER 5 =
      ({ zeroState with enable := false }, [Event.logDisabled]) ∧
    (stm32_gpio_irq_enable
        (applyWrites (stm32_gpio_irq_enable zeroState 0).1
          [(STM32_GPIO_REG_MODER, 5)]) 1).1 = zeroState :=
  ⟨(stm32_gpio_disabled_access zeroState [(STM32_GPIO_REG_MODER, 5)]
      (by decide) (by decide) (by decide)
      (by unfold Consistent; decide)).1,
    (stm32_gpio_disabled_access zeroState [(STM32_GPIO_REG_MODER, 5)]
      (by decide) (by decide) (by decide)
      (by unfold Consistent; decide)).2.2.1 STM32_GPIO_REG_MODER 5,
    (stm32_gpio_disabled_access zeroState [(STM32_GPIO_REG_MODER, 5)]
      (by decide) (by decide) (by decide)
      (by unfold Consistent; decide)).2.2.2.2.1⟩

/-! ## C10 -/

theorem irq_set_nonneg (s : STM32GPIOState) (line : Nat) (v : Int)
    (hv : 0 ≤ v) :
    stm32_gpio_irq_set s line v =
      stm32_gpio_update_state { s with
        in_mask := deposit32 s.in_mask line 1 1,
        inp := deposit32 s.inp line 1 (if v ≠ 0 then 1 else 0) } := by
  simp [stm32_gpio_irq_set, hv]

theorem irq_set_neg (s : STM32GPIOState) (line : Nat) (v : Int)
    (hv : ¬ 0 ≤ v) :
    stm32_gpio_irq_set s line v =
      stm32_gpio_update_state
        { s with in_mask := deposit32 s.in_mask line 1 0 } := by
  simp [stm32_gpio_irq_set, hv]

/-- Pin 4 externally driven high on an unpowered STM32F2 port A. -/
def unpoweredState : STM32GPIOState := { zeroState with enable := false }

/-- C10: the powered gate applies only to register accesses.  While
`enable` is false, an external-drive update still records the
presence/level bits, still runs a full resolution pass (the resulting
IDR is consistent with the new inputs) and still pulses the port-level
notification; likewise the enable and reset transitions take effect
and resolve while unpowered. -/
theorem stm32_gpio_unpowered_inputs (s : STM32GPIOState) (line : Nat)
    (v : Int) (hen : s.enable = false) (hline : line < s.ngpio)
    (hn : s.ngpio ≤ STM32_GPIO_NPINS) :
    ((stm32_gpio_irq_set s line v).1.in_mask =
        deposit32 s.in_mask line 1 (if 0 ≤ v then 1 else 0)) ∧
    (0 ≤ v → (stm32_gpio_irq_set s line v).1.inp =
        deposit32 s.inp line 1 (if v ≠ 0 then 1 else 0)) ∧
    (v < 0 → (stm32_gpio_irq_set s line v).1.inp = s.inp) ∧
    Consistent (stm32_gpio_irq_set s line v).1 ∧
    Event.statePulse ∈ (stm32_gpio_irq_set s line v).2 ∧
    ((stm32_gpio_irq_enable s 1).1.enable = true ∧
      Event.statePulse ∈ (stm32_gpio_irq_enable s 1).2) ∧
    (s.reset = false →
      (stm32_gpio_irq_reset s 1).1.moder =
          stm32_gpio_reset_moder s.family s.port ∧
        Event.statePulse ∈ (stm32_gpio_irq_reset s 1).2) := by
  have h32 : s.ngpio ≤ 32 := by
    have : STM32_GPIO_NPINS = 16 := rfl
    omega
  refine ⟨?_, ?_, ?_, ?_, ?_, ⟨?_, ?_⟩, ?_⟩
  · by_cases hv : 0 ≤ v
    · rw [irq_set_nonneg s line v hv, update_state_eq, if_pos hv]
    · rw [irq_set_neg s line v hv, update_state_eq, if_neg hv]
  · intro hv
    rw [irq_set_nonneg s line v hv, update_state_eq]
  · intro hv
    rw [irq_set_neg s line v (by omega), update_state_eq]
  · by_cases hv : 0 ≤ v
    · rw [irq_set_nonneg s line v hv]
      exact update_state_consistent _ h32
    · rw [irq_set_neg s line v hv]
      exact update_state_consistent _ h32
  · by_cases hv : 0 ≤ v
    · rw [irq_set_nonneg s line v hv]
      exact statePulse_mem_update_state _
    · rw [irq_set_neg s line v hv]
      exact statePulse_mem_update_state _
  · unfold stm32_gpio_irq_enable
    rw [if_pos (by simp [hen]), update_state_eq]
    simp
  · unfold stm32_gpio_irq_enable
    rw [if_pos (by simp [hen])]
    exact statePulse_mem_update_state _
  · intro hr
    unfold stm32_gpio_irq_reset
    rw [if_pos (by simp [hr])]
    rw [if_pos (by simp)]
    exact ⟨(stm32_gpio_reset_fields _).1,
      (stm32_gpio_reset_fields _).2.2.2.2.2.2.2.2⟩

theorem stm32_gpio_unpowered_inputs_witness :
    (stm32_gpio_irq_set unpoweredState 4 1).1.in_mask =
      deposit32 unpoweredState.in_mask 4 1 1 ∧
    Consistent (stm32_gpio_irq_set unpoweredState 4 1).1 ∧
    Event.statePulse ∈ (stm32_gpio_irq_set unpoweredState 4 1).2 ∧
    (stm32_gpio_irq_enable unpoweredState 1).1.enable = true :=
  ⟨(stm32_gpio_unpowered_inputs unpoweredState 4 1 (by decide)
      (by decide) (by decide)).1,
    (stm32_gpio_unpowered_inputs unpoweredState 4 1 (by decide)
      (by decide) (by decide)).2.2.2.1,
    (stm32_gpio_unpowered_inputs unpoweredState 4 1 (by decide)
      (by decide) (by decide)).2.2.2.2.1,
    (stm32_gpio_unpowered_inputs unpoweredState 4 1 (by decide)
      (by decide) (by decide)).2.2.2.2.2.1.1⟩
